import Mathlib

/-!
Verification of the ic-repl expression evaluator (`src/exp.rs`).

This file gives a shallow embedding of the evaluator's data model and
operations:

* `Label`, `idlHash`, `Ty`, `Value` model candid's `Label`, `idl_hash`,
  `Type` and `IDLValue`.  Candid compares labels by their numeric id
  (`Label::get_id`, with `PartialEq for Label` defined through `get_id`),
  which the embedding mirrors in `Label.getId` and `structEq`.
* `eval` models `Exp::eval`.  Machine floats (`f64`) are modelled by exact
  rationals (`Rat`); IEEE rounding, infinities and NaN are outside the
  model.  Arbitrary-precision integers (`candid::Int`, a `BigInt`) are
  modelled by `Int`.  External side effects (file system, subprocesses,
  identity derivation, ...) are supplied by an oracle in the `Helper`
  record; network calls are modelled by the standalone functions
  `callModel` / `parCallModel` below, mirroring how the source factors
  them into `call` and `parallel_calls`.
* Evaluation is fuelled: `eval h fuel e` returns the out-of-fuel error
  when `fuel` runs out; every recursive call spends one unit.  All
  theorems relate evaluations at matching fuel.
-/

namespace IcRepl

/-- Candid's `idl_hash`: `h := h * 223 + byte (mod 2^32)` over the bytes of
the name.  The model folds over the characters (faithful for ASCII names). -/
def idlHash (s : String) : Nat :=
  s.data.foldl (fun h c => (h * 223 + c.toNat) % 4294967296) 0

/-- Model of `candid::types::Label`: a record/variant field id. -/
inductive Label where
  | id (n : Nat)
  | named (s : String)
  | unnamed (n : Nat)
  deriving DecidableEq

/-- Model of `Label::get_id`: numeric ids are used verbatim (u32), named labels are
hashed.  Candid's `PartialEq`/`Ord` for `Label` compare via `get_id`. -/
def Label.getId : Label → Nat
  | .id n => n % 4294967296
  | .named s => idlHash s
  | .unnamed n => n % 4294967296

mutual
/-- Candid `Type` (the fragment reachable from `IDLValue::value_ty`).
Record/variant field labels are represented by their numeric id, because
candid compares labels by id.  The field list is a mutually inductive
list (so that the type functions below are structural recursions). -/
inductive Ty where
  | bool | null | text | int | nat
  | nat8 | nat16 | nat32 | nat64
  | int8 | int16 | int32 | int64
  | float32 | float64
  | empty | reserved | principal | service | func
  | opt (t : Ty)
  | vec (t : Ty)
  | record (fs : TyFields)
  | variant (fs : TyFields)

/-- A list of (label id, type) fields. -/
inductive TyFields where
  | nil
  | cons (id : Nat) (t : Ty) (tl : TyFields)
end

mutual
/-- Model of `candid::types::value::IDLValue`.  `number` keeps the undetermined
number literal as its source string; `float32`/`float64` carry exact
rationals (model of `f32`/`f64`); `principal`/`service`/`func` carry the
textual principal.  Vector elements and record fields are mutually
inductive lists (so that the value functions below are structural
recursions). -/
inductive Value where
  | bool (b : Bool)
  | null
  | text (s : String)
  | number (s : String)
  | int (i : Int)
  | nat (n : Nat)
  | nat8 (n : Nat) | nat16 (n : Nat) | nat32 (n : Nat) | nat64 (n : Nat)
  | int8 (i : Int) | int16 (i : Int) | int32 (i : Int) | int64 (i : Int)
  | float32 (q : Rat)
  | float64 (q : Rat)
  | opt (v : Value)
  | vnone
  | reserved
  | blob (bs : List Nat)
  | vec (vs : ValueList)
  | record (fs : FieldList)
  | variant (l : Label) (v : Value) (idx : Nat)
  | principal (s : String)
  | service (s : String)
  | func (s : String) (m : String)

/-- A list of vector elements. -/
inductive ValueList where
  | nil
  | cons (hd : Value) (tl : ValueList)

/-- A list of record fields (`IDLField { id, val }`). -/
inductive FieldList where
  | nil
  | cons (l : Label) (v : Value) (tl : FieldList)
end

/-- Convert a plain list of values into a `ValueList`. -/
def ValueList.ofList : List Value → ValueList
  | [] => .nil
  | v :: vs => .cons v (ValueList.ofList vs)

/-- Convert a `ValueList` back into a plain list. -/
def ValueList.toList : ValueList → List Value
  | .nil => []
  | .cons v vs => v :: ValueList.toList vs

/-- Convert a plain list of fields into a `FieldList`. -/
def FieldList.ofList : List (Label × Value) → FieldList
  | [] => .nil
  | (l, v) :: fs => .cons l v (FieldList.ofList fs)

/-- Convert a `FieldList` back into a plain list. -/
def FieldList.toList : FieldList → List (Label × Value)
  | .nil => []
  | .cons l v fs => (l, v) :: FieldList.toList fs

theorem valueListToListOfList (vs : List Value) :
    (ValueList.ofList vs).toList = vs := by
  induction vs with
  | nil => rfl
  | cons v vs ih => simp [ValueList.ofList, ValueList.toList, ih]

theorem fieldListToListOfList (fs : List (Label × Value)) :
    (FieldList.ofList fs).toList = fs := by
  induction fs with
  | nil => rfl
  | cons f fs ih =>
    obtain ⟨l, v⟩ := f
    simp [FieldList.ofList, FieldList.toList, ih]

mutual
/-- Model of `IDLValue::value_ty`.  Untyped numbers report `int`; a blob is
`vec nat8`; a vector reports its first element's type (`empty` when
empty); service/function values report constant service/function
types. -/
def valueTy : Value → Ty
  | .bool _ => .bool
  | .null => .null
  | .text _ => .text
  | .number _ => .int
  | .int _ => .int
  | .nat _ => .nat
  | .nat8 _ => .nat8
  | .nat16 _ => .nat16
  | .nat32 _ => .nat32
  | .nat64 _ => .nat64
  | .int8 _ => .int8
  | .int16 _ => .int16
  | .int32 _ => .int32
  | .int64 _ => .int64
  | .float32 _ => .float32
  | .float64 _ => .float64
  | .opt v1 => .opt (valueTy v1)
  | .vnone => .opt .empty
  | .reserved => .reserved
  | .blob _ => .vec .nat8
  | .vec .nil => .vec .empty
  | .vec (.cons v1 _) => .vec (valueTy v1)
  | .record fs => .record (fieldTys fs)
  | .variant l v1 _ => .variant (.cons l.getId (valueTy v1) .nil)
  | .principal _ => .principal
  | .service _ => .service
  | .func _ _ => .func

/-- The (label id, type) fields of a record value's type. -/
def fieldTys : FieldList → TyFields
  | .nil => .nil
  | .cons l v tl => .cons l.getId (valueTy v) (fieldTys tl)
end

mutual
/-- Structural value equality; behaves as candid's derived `PartialEq`
for `IDLValue`: componentwise, with labels compared by `get_id`
(candid's `PartialEq for Label`). -/
def structEq : Value → Value → Bool
  | .bool b1, .bool b2 => b1 == b2
  | .null, .null => true
  | .text s1, .text s2 => s1 == s2
  | .number s1, .number s2 => s1 == s2
  | .int i1, .int i2 => i1 == i2
  | .nat n1, .nat n2 => n1 == n2
  | .nat8 n1, .nat8 n2 => n1 == n2
  | .nat16 n1, .nat16 n2 => n1 == n2
  | .nat32 n1, .nat32 n2 => n1 == n2
  | .nat64 n1, .nat64 n2 => n1 == n2
  | .int8 i1, .int8 i2 => i1 == i2
  | .int16 i1, .int16 i2 => i1 == i2
  | .int32 i1, .int32 i2 => i1 == i2
  | .int64 i1, .int64 i2 => i1 == i2
  | .float32 q1, .float32 q2 => q1 == q2
  | .float64 q1, .float64 q2 => q1 == q2
  | .opt v1, .opt v2 => structEq v1 v2
  | .vnone, .vnone => true
  | .reserved, .reserved => true
  | .blob b1, .blob b2 => b1 == b2
  | .vec vs1, .vec vs2 => structEqList vs1 vs2
  | .record fs1, .record fs2 => structEqFields fs1 fs2
  | .variant l1 v1 i1, .variant l2 v2 i2 =>
      l1.getId == l2.getId && structEq v1 v2 && i1 == i2
  | .principal s1, .principal s2 => s1 == s2
  | .service s1, .service s2 => s1 == s2
  | .func s1 m1, .func s2 m2 => s1 == s2 && m1 == m2
  | _, _ => false

/-- Pointwise equality of vectors (`Vec<IDLValue>` equality: equal
lengths and equal elements). -/
def structEqList : ValueList → ValueList → Bool
  | .nil, .nil => true
  | .cons v1 t1, .cons v2 t2 => structEq v1 v2 && structEqList t1 t2
  | _, _ => false

/-- Pointwise equality of field lists (`IDLField` equality: labels by
id, values structurally). -/
def structEqFields : FieldList → FieldList → Bool
  | .nil, .nil => true
  | .cons l1 v1 t1, .cons l2 v2 t2 =>
      l1.getId == l2.getId && structEq v1 v2 && structEqFields t1 t2
  | _, _ => false
end

mutual
/-- Structural equality of types; behaves as candid's `PartialEq` for
`Type` (labels are already represented by their id here). -/
def tyBeq : Ty → Ty → Bool
  | .bool, .bool => true
  | .null, .null => true
  | .text, .text => true
  | .int, .int => true
  | .nat, .nat => true
  | .nat8, .nat8 => true
  | .nat16, .nat16 => true
  | .nat32, .nat32 => true
  | .nat64, .nat64 => true
  | .int8, .int8 => true
  | .int16, .int16 => true
  | .int32, .int32 => true
  | .int64, .int64 => true
  | .float32, .float32 => true
  | .float64, .float64 => true
  | .empty, .empty => true
  | .reserved, .reserved => true
  | .principal, .principal => true
  | .service, .service => true
  | .func, .func => true
  | .opt t1, .opt t2 => tyBeq t1 t2
  | .vec t1, .vec t2 => tyBeq t1 t2
  | .record fs1, .record fs2 => tyBeqFields fs1 fs2
  | .variant fs1, .variant fs2 => tyBeqFields fs1 fs2
  | _, _ => false

/-- Pointwise equality of type field lists. -/
def tyBeqFields : TyFields → TyFields → Bool
  | .nil, .nil => true
  | .cons n1 t1 tl1, .cons n2 t2 tl2 =>
      n1 == n2 && tyBeq t1 t2 && tyBeqFields tl1 tl2
  | _, _ => false
end

/-- Decimal digit list to `Nat` (`none` unless nonempty and all digits). -/
def parseDigits (ds : List Char) : Option Nat :=
  if ds ≠ [] ∧ ds.all (fun c => c.isDigit) then
    some (ds.foldl (fun n c => n * 10 + (c.toNat - 48)) 0)
  else none

/-- Model of parsing an undetermined number literal as an
arbitrary-precision integer (`candid::Int`'s `FromStr`): optional sign,
decimal digits, `_` separators ignored. -/
def parseIntStr (s : String) : Option Int :=
  match s.data.filter (fun c => c ≠ '_') with
  | '-' :: ds => (parseDigits ds).map (fun n => -(n : Int))
  | '+' :: ds => (parseDigits ds).map (fun n => (n : Int))
  | ds => (parseDigits ds).map (fun n => (n : Int))

/-- Is the value a machine float (`IDLValue::Float32 | IDLValue::Float64`)? -/
def isFloatVal : Value → Bool
  | .float32 _ => true
  | .float64 _ => true
  | _ => false

/-- Modelled from the spec: `cast_type` lives in `utils.rs`, which is not
part of the provided sources.  Per the spec it applies "the type system's
canonical coercion rules (numeric widening, optional wrapping, variant
re-tagging)" and fails on incompatibility.  The model covers the numeric
and optional rules (all the evaluator's builtins need); other target
types are reported as unsupported-by-the-model errors. -/
def castType (v : Value) (t : Ty) : Except String Value :=
  match t with
  | .int =>
    match v with
    | .number s =>
      match parseIntStr s with
      | some i => .ok (.int i)
      | none => .error ("cannot parse number " ++ s)
    | .int i => .ok (.int i)
    | .nat n => .ok (.int n)
    | _ => .error "cannot cast value to type int"
  | .nat =>
    match v with
    | .number s =>
      match parseIntStr s with
      | some i => if i < 0 then .error "not a nat" else .ok (.nat i.toNat)
      | none => .error ("cannot parse number " ++ s)
    | .nat n => .ok (.nat n)
    | _ => .error "cannot cast value to type nat"
  | .float64 =>
    match v with
    | .float64 q => .ok (.float64 q)
    | .float32 q => .ok (.float64 q)
    | .number s =>
      match parseIntStr s with
      | some i => .ok (.float64 (i : Rat))
      | none => .error ("cannot parse number " ++ s)
    | .int i => .ok (.float64 (i : Rat))
    | .nat n => .ok (.float64 (n : Rat))
    | .nat8 n => .ok (.float64 (n : Rat))
    | .nat16 n => .ok (.float64 (n : Rat))
    | .nat32 n => .ok (.float64 (n : Rat))
    | .nat64 n => .ok (.float64 (n : Rat))
    | .int8 i => .ok (.float64 (i : Rat))
    | .int16 i => .ok (.float64 (i : Rat))
    | .int32 i => .ok (.float64 (i : Rat))
    | .int64 i => .ok (.float64 (i : Rat))
    | _ => .error "cannot cast value to type float64"
  | .bool =>
    match v with
    | .bool b => .ok (.bool b)
    | _ => .error "cannot cast value to type bool"
  | .text =>
    match v with
    | .text s => .ok (.text s)
    | _ => .error "cannot cast value to type text"
  | .null =>
    match v with
    | .null => .ok .null
    | _ => .error "cannot cast value to type null"
  | .opt t1 =>
    match v with
    | .vnone => .ok .vnone
    | .null => .ok .vnone
    | .opt w => (castType w t1).map .opt
    | w => (castType w t1).map .opt
  | _ => .error "cast to this type is not modelled"

/-- Field order used by `concat`'s record case: ascending label id. -/
def fieldLe (a b : Label × Value) : Prop :=
  a.1.getId ≤ b.1.getId

instance : DecidableRel fieldLe := fun a b =>
  inferInstanceAs (Decidable (a.1.getId ≤ b.1.getId))

instance : IsTotal (Label × Value) fieldLe :=
  ⟨fun a b => Nat.le_total a.1.getId b.1.getId⟩

instance : IsTrans (Label × Value) fieldLe :=
  ⟨fun _ _ _ => Nat.le_trans⟩

/-- The sort used by `concat`'s record case
(`fs.sort_unstable_by_key(|IDLField, ..| id.get_id())`).  Any key-sorted
permutation is observationally equivalent, since key ties always make
the subsequent uniqueness check fail (key-equal labels are equal labels
for candid). -/
def sortByKey (fs : List (Label × Value)) : List (Label × Value) :=
  List.insertionSort fieldLe fs

/-- First adjacent duplicate in a list (model of candid's `check_unique`,
which scans a sorted sequence for equal neighbours — with candid labels
comparing equal iff their ids are equal). -/
def findAdjacentDup : List Nat → Option Nat
  | [] => none
  | [_] => none
  | a :: b :: rest => if a = b then some a else findAdjacentDup (b :: rest)

/-- The label ids of a field list. -/
def fieldIds (fs : List (Label × Value)) : List Nat :=
  fs.map (fun p => p.1.getId)

/-- Variable environment: name-to-value bindings (`helper.env`).
Insertion prepends and lookup takes the first match, which gives the
`BTreeMap` replace-on-insert behaviour observationally. -/
abbrev VarEnv := List (String × Value)

/-- Modelled from the spec: a user-function body is a sequence of script
statements run by `command.rs` (not under the provided sources); the spec
treats it as opaque beyond "runs and may assign `_`".  A command is
modelled as a state transformer on the variable environment. -/
abbrev Cmd := VarEnv → Except String VarEnv

/-- The evaluator context (`MyHelper`): variable bindings, user-function
table, offline-mode flag, and an oracle for the I/O-and-process builtins
(file, gzip, exec, account derivation, ...) whose behaviour lives outside
the evaluator. -/
structure Helper where
  env : VarEnv
  funcEnv : List (String × (List String × List Cmd))
  offline : Bool
  ioOracle : String → List Value → Except String Value
  exportWrite : String → List (String × Value) → Except String Unit

def lookupVar (env : VarEnv) (x : String) : Option Value :=
  (env.find? (fun p => p.1 == x)).map (fun p => p.2)

def insertVar (env : VarEnv) (x : String) (v : Value) : VarEnv :=
  (x, v) :: env

def lookupFn (h : Helper) (f : String) : Option (List String × List Cmd) :=
  (h.funcEnv.find? (fun p => p.1 == f)).map (fun p => p.2)

/-- Bind formal parameters positionally to argument values. -/
def bindArgs (formals : List String) (args : List Value) (env : VarEnv) : VarEnv :=
  (formals.zip args).foldl (fun e p => insertVar e p.1 p.2) env

/-- Run a function body sequentially (`for cmd in body { cmd.run(..)? }`). -/
def runBody (body : List Cmd) (env : VarEnv) : Except String VarEnv :=
  body.foldlM (fun e c => c e) env

/-- Model of `apply_func` (`src/exp.rs:905`): look up a user-defined function,
check arity, bind parameters positionally in a spawned child environment
(modelled from the spec: a spawned helper owns a fresh, independent
variable mapping), run the body, and return the child's final `_`
binding, or null if absent. -/
def applyFunc (h : Helper) (f : String) (args : List Value) : Except String Value :=
  match lookupFn h f with
  | none => .error ("Unknown function " ++ f)
  | some (formals, body) =>
    if formals.length ≠ args.length then
      .error (f ++ " expects " ++ toString formals.length ++
        " arguments, but " ++ toString args.length ++ " is provided")
    else
      match runBody body (bindArgs formals args []) with
      | .error e => .error e
      | .ok env1 => .ok ((lookupVar env1 "_").getD .null)

/-- Float arithmetic and comparison (`f64` modelled by exact rationals). -/
def floatArith (f : String) (q1 q2 : Rat) : Value :=
  match f with
  | "add" => .float64 (q1 + q2)
  | "sub" => .float64 (q1 - q2)
  | "mul" => .float64 (q1 * q2)
  | "div" => .float64 (q1 / q2)
  | "lt" => .bool (decide (q1 < q2))
  | "lte" => .bool (decide (q1 ≤ q2))
  | "gt" => .bool (decide (q2 < q1))
  | "gte" => .bool (decide (q2 ≤ q1))
  | _ => .null

/-- Arbitrary-precision integer arithmetic and comparison.  `Int.tdiv`
truncates toward zero, as `BigInt` division does; the Rust code panics on
a zero divisor while `Int.tdiv _ 0 = 0`, so theorems about `div` assume a
nonzero divisor. -/
def intArith (f : String) (i1 i2 : Int) : Value :=
  match f with
  | "add" => .number (toString (i1 + i2))
  | "sub" => .number (toString (i1 - i2))
  | "mul" => .number (toString (i1 * i2))
  | "div" => .number (toString (Int.tdiv i1 i2))
  | "lt" => .bool (decide (i1 < i2))
  | "lte" => .bool (decide (i1 ≤ i2))
  | "gt" => .bool (decide (i2 < i1))
  | "gte" => .bool (decide (i2 ≤ i1))
  | _ => .null

/-- The builtin names routed to the external-effects oracle
(account/identity derivation, file system, subprocess, wasm tooling). -/
def ioNames : List String :=
  ["account", "subaccount", "neuron_account", "replica_url", "file",
   "gzip", "exec", "wasm_profiling", "flamegraph", "output", "stringify"]

def arithNames : List String := ["lt", "lte", "gt", "gte", "add", "sub", "mul", "div"]

/-- The comparison/arithmetic arm (`src/exp.rs:512-561`): if either
operand is a machine float, both are cast to `float64` and the float
semantics apply; otherwise both are cast to arbitrary-precision `int`.
A successful cast to float64 (resp. int) always yields a `float64`
(resp. `int`) value, so the panic arms are unreachable. -/
def arithStep (f : String) (v1 v2 : Value) : Except String Value :=
  if isFloatVal v1 || isFloatVal v2 then
    match castType v1 .float64 with
    | .error e => .error e
    | .ok (.float64 q1) =>
      match castType v2 .float64 with
      | .error e => .error e
      | .ok (.float64 q2) => .ok (floatArith f q1 q2)
      | .ok _ => .error "panic: cast to float64 did not yield a float"
    | .ok _ => .error "panic: cast to float64 did not yield a float"
  else
    match castType v1 .int with
    | .error e => .error e
    | .ok (.int i1) =>
      match castType v2 .int with
      | .error e => .error e
      | .ok (.int i2) => .ok (intArith f i1 i2)
      | .ok _ => .error "panic: cast to int did not yield an int"
    | .ok _ => .error "panic: cast to int did not yield an int"

/-- The builtin dispatch over already-evaluated arguments: the arms of the
`match func.as_str()` in `Exp::eval` (`src/exp.rs:161-563`) that run after
the arguments were reduced.  I/O-and-process builtins go to the oracle;
`read_state`/`send` are only builtins when not offline (their guarded
match arms fall through to the user-function lookup otherwise); unknown
names fall back to `apply_func`. -/
def applyBuiltin (h : Helper) (f : String) (args : List Value) : Except String Value :=
  if f ∈ ioNames then h.ioOracle f args
  else if (f = "read_state" || f = "send") && !h.offline then h.ioOracle f args
  else if f = "concat" then
    match args with
    | [.vec s1, .vec s2] => .ok (.vec (.ofList (s1.toList ++ s2.toList)))
    | [.blob b1, .blob b2] => .ok (.blob (b1 ++ b2))
    | [.text t1, .text t2] => .ok (.text (t1 ++ t2))
    | [.record f1, .record f2] =>
      let fs := sortByKey (f1.toList ++ f2.toList)
      match findAdjacentDup (fieldIds fs) with
      | some d => .error ("label " ++ toString d ++ " hash collision")
      | none => .ok (.record (.ofList fs))
    | _ => .error "concat expects two vec, record or text"
  else if f = "eq" || f = "neq" then
    match args with
    | [v1, v2] =>
      if tyBeq (valueTy v1) (valueTy v2) then
        .ok (.bool (if f = "eq" then structEq v1 v2 else !(structEq v1 v2)))
      else .error (f ++ " expects two values of the same type")
    | _ => .error (f ++ " expects two values")
  else if f = "and" || f = "or" then
    match args with
    | [.bool b1, .bool b2] => .ok (.bool (if f = "and" then b1 && b2 else b1 || b2))
    | _ => .error (f ++ " expects bool values")
  else if f = "not" then
    match args with
    | [.bool b] => .ok (.bool !b)
    | _ => .error "not expects a bool value"
  else if f ∈ arithNames then
    match args with
    | [v1, v2] => arithStep f v1 v2
    | _ => .error (f ++ " expects two numbers")
  else applyFunc h f args

/-- A projection step in a `Path` expression. -/
inductive Selector where
  | index (n : Nat)
  | field (name : String)

/-- Modelled from the spec: `project` lives in `selector.rs`, not under
the provided sources; the spec describes a Path as "variable lookup
followed by a field/index projection chain". -/
def projectOne (v : Value) (s : Selector) : Except String Value :=
  match s, v with
  | .index n, .vec vs =>
    match vs.toList.get? n with
    | some w => .ok w
    | none => .error "index out of bounds"
  | .field name, .record fs =>
    match fs.toList.find? (fun p => p.1.getId == Label.getId (.named name)) with
    | some p => .ok p.2
    | none => .error ("field " ++ name ++ " not found")
  | _, _ => .error "cannot project into this value"

def project (v : Value) : List Selector → Except String Value
  | [] => .ok v
  | s :: ss =>
    match projectOne v s with
    | .error e => .error e
    | .ok w => project w ss

/-- The expression tree (`Exp` in `src/exp.rs`).  The three
transport-backed constructors (`Call`, `ParCall`, `Decode`) are modelled
by the standalone functions `callModel` / `parCallModel` below, mirroring
how the source factors their execution into `call` and `parallel_calls`;
everything else is embedded here. -/
inductive Exp where
  | path (id : String) (sels : List Selector)
  | annVal (e : Exp) (t : Ty)
  | fail (e : Exp)
  | apply (f : String) (args : List Exp)
  | bool (b : Bool)
  | null
  | text (s : String)
  | number (s : String)
  | float64 (q : Rat)
  | opt (e : Exp)
  | blob (bs : List Nat)
  | vec (es : List Exp)
  | record (fs : List (Label × Exp))
  | variant (l : Label) (e : Exp) (idx : Nat)
  | principal (s : String)
  | service (s : String)
  | func (s : String) (m : String)

/-- Evaluate a list of expressions left to right, stopping at the first
error (the argument-evaluation loop of `Exp::eval`). -/
def evalList (ev : Exp → Except String Value) : List Exp → Except String (List Value)
  | [] => .ok []
  | e :: es =>
    match ev e with
    | .error s => .error s
    | .ok v =>
      match evalList ev es with
      | .error s => .error s
      | .ok vs => .ok (v :: vs)

/-- Evaluate record fields in order, keeping each label untouched
(the `Exp::Record` arm of `Exp::eval`, `src/exp.rs:777-786`). -/
def evalFields (ev : Exp → Except String Value) :
    List (Label × Exp) → Except String (List (Label × Value))
  | [] => .ok []
  | (l, e) :: fs =>
    match ev e with
    | .error s => .error s
    | .ok v =>
      match evalFields ev fs with
      | .error s => .error s
      | .ok gs => .ok ((l, v) :: gs)

/-- The `export` builtin: the remaining arguments must be bare variable
references; their values are written out through the `exportWrite`
oracle. -/
def collectVars (ev : Exp → Except String Value) :
    List Exp → Except String (List (String × Value))
  | [] => .ok []
  | e :: es =>
    match e with
    | .path id _sels =>
      match ev e with
      | .error s => .error s
      | .ok v =>
        match collectVars ev es with
        | .error s => .error s
        | .ok ps => .ok ((id, v) :: ps)
    | _ => .error "export expects variables"

def evalExport (ev : Exp → Except String Value) (h : Helper)
    (exps : List Exp) : Except String Value :=
  match exps with
  | [] => .error "export expects at least two arguments"
  | [_] => .error "export expects at least two arguments"
  | p :: rest =>
    match ev p with
    | .error s => .error s
    | .ok (.text path) =>
      match collectVars ev rest with
      | .error s => .error s
      | .ok pairs =>
        match h.exportWrite path pairs with
        | .error s => .error s
        | .ok _ => .ok .null
    | .ok _ => .error "export expects first argument to be a file path"

/-- Model of `Exp::eval` (`src/exp.rs:84-795`), fuelled: every recursive call
spends one unit, and exhausted fuel reports an out-of-fuel error (a model
artifact — the theorems relate evaluations at matching fuel).  `ite`,
`exist` and `export` inspect un-evaluated sub-expressions; every other
`Apply` evaluates its arguments left to right and dispatches on the
builtin name via `applyBuiltin`. -/
def eval (h : Helper) : Nat → Exp → Except String Value
  | 0, _ => .error "eval: out of fuel"
  | fuel + 1, e =>
    match e with
    | .path id sels =>
      match lookupVar h.env id with
      | none => .error ("Undefined variable " ++ id)
      | some v => project v sels
    | .annVal e1 t =>
      match eval h fuel e1 with
      | .error s => .error s
      | .ok v =>
        match castType v t with
        | .error s => .error ("casting to type fails: " ++ s)
        | .ok v1 => .ok v1
    | .fail e1 =>
      match eval h fuel e1 with
      | .error s => .ok (.text s)
      | .ok _ => .error "Expects an error state"
    | .apply f es =>
      if f = "ite" then
        match es with
        | [c, a, b] =>
          match eval h fuel c with
          | .ok (.bool true) => eval h fuel a
          | .ok (.bool false) => eval h fuel b
          | .ok _ => .error "ite expects the first argument to be a boolean expression"
          | .error s => .error s
        | _ => .error "ite expects a bool, true branch and false branch"
      else if f = "exist" then
        match es with
        | [e1] =>
          match eval h fuel e1 with
          | .ok _ => .ok (.bool true)
          | .error _ => .ok (.bool false)
        | _ => .error "exist expects an expression"
      else if f = "export" then evalExport (eval h fuel) h es
      else
        match evalList (eval h fuel) es with
        | .error s => .error s
        | .ok args => applyBuiltin h f args
    | .bool b => .ok (.bool b)
    | .null => .ok .null
    | .text s => .ok (.text s)
    | .number n => .ok (.number n)
    | .float64 q => .ok (.float64 q)
    | .opt e1 =>
      match eval h fuel e1 with
      | .error s => .error s
      | .ok v => .ok (.opt v)
    | .blob bs => .ok (.blob bs)
    | .vec es =>
      match evalList (eval h fuel) es with
      | .error s => .error s
      | .ok vs => .ok (.vec (.ofList vs))
    | .record fs =>
      match evalFields (eval h fuel) fs with
      | .error s => .error s
      | .ok gs => .ok (.record (.ofList gs))
    | .variant l e1 idx =>
      match eval h fuel e1 with
      | .error s => .error s
      | .ok v => .ok (.variant l v idx)
    | .principal s => .ok (.principal s)
    | .service s => .ok (.service s)
    | .func s m => .ok (.func s m)

/-- A candid function-mode annotation. -/
inductive Mode where
  | oneway
  | query
  | compositeQuery
  deriving DecidableEq

/-- The part of a resolved signature the call executor consults: the mode
flags (for the query-vs-update decision) and the return types (fed to the
decoder). -/
structure FuncSig where
  modes : List Mode
  rets : List Ty

/-- Model of `Function::is_query`: a method is a query if its modes contain
`query` or `composite_query`. -/
def FuncSig.isQuery (f : FuncSig) : Bool :=
  f.modes.any (fun m => m == Mode.query || m == Mode.compositeQuery)

/-- Modelled from the spec: `args_to_value` lives in `utils.rs`, not
under the provided sources; per the spec a result set of one value is
that value, and several values form a value-tuple (a record with unnamed
labels) in order. -/
def argsToValue (args : List Value) : Value :=
  match args with
  | [v] => v
  | vs => .record (.ofList (vs.enum.map (fun p => (Label.unnamed p.1, p.2))))

def hexDigit (n : Nat) : Char :=
  if n < 10 then Char.ofNat (48 + n) else Char.ofNat (87 + n)

/-- Lowercase hex encoding of a byte string (`hex::encode`). -/
def hexEncode (bs : List Nat) : String :=
  String.mk (bs.flatMap (fun b => [hexDigit (b % 256 / 16), hexDigit (b % 16)]))

/-- One signed request envelope (`offline::Ingress`): the call kind, an
optional hex request id, and the hex-encoded signed payload. -/
structure Ingress where
  callType : String
  requestId : Option String
  content : String
  deriving DecidableEq

/-- A signed status-poll descriptor (`offline::RequestStatus`). -/
structure RequestStatus where
  canisterId : String
  requestId : String
  content : String
  deriving DecidableEq

/-- A message-log record (`offline::IngressWithStatus`). -/
structure IngressWithStatus where
  ingress : Ingress
  requestStatus : Option RequestStatus
  deriving DecidableEq

/-- The transport and signing primitives of the agent (an external
collaborator), as oracles: each takes the canister, method, argument
bytes and effective canister id. -/
structure Agent where
  query : String → String → List Nat → String → Except String (List Nat)
  updateAndWait : String → String → List Nat → String → Except String (List Nat)
  signQuery : String → String → List Nat → String → Except String (List Nat)
  signUpdate : String → String → List Nat → String → Except String (List Nat × List Nat)
  signRequestStatus : String → List Nat → Except String (String × List Nat × List Nat)

/-- Everything the call executor reads from its context: the agent, the
candid decoders, the effective-address routing override
(`get_effective_canister_id`, an external policy), the default effective
id, and the offline-mode configuration. -/
structure CallEnv where
  agent : Agent
  decodeWith : List Ty → List Nat → Except String (List Value)
  decodePlain : List Nat → Except String (List Value)
  effOverride : String → String → List Nat → Except String (Option String)
  defaultEffectiveId : String
  offline : Option Unit

/-- Decode reply bytes against the resolved signature when present
(`IDLArgs::from_bytes_with_types` with `func.rets`), else
self-describing (`IDLArgs::from_bytes`). -/
def decodeRes (ce : CallEnv) (optFunc : Option FuncSig) (bytes : List Nat) :
    Except String (List Value) :=
  match optFunc with
  | some f => ce.decodeWith f.rets bytes
  | none => ce.decodePlain bytes

/-- The query/update and live/offline dispatch of the single-call
executor `call` (`src/exp.rs:936-1008`): dispatch is on the signature's
query flag (update when unresolved).  With a live transport the call is
issued and its reply decoded; in offline mode the request is signed
instead (plus a matching status-poll request for updates), the envelope
is appended to the message log and emitted to the sink, and an empty
result set is returned.  Returns (result, message log, sink). -/
def callModelDispatch (ce : CallEnv) (msgs sink : List IngressWithStatus)
    (cid method : String) (args : List Nat) (optFunc : Option FuncSig)
    (effectiveId : String) :
    Except String (List Value) × List IngressWithStatus × List IngressWithStatus :=
  match (optFunc.map FuncSig.isQuery).getD false, ce.offline with
  | true, some _ =>
    match ce.agent.signQuery cid method args effectiveId with
    | .error e => (.error e, msgs, sink)
    | .ok signedQuery =>
      let message : IngressWithStatus :=
        ⟨⟨"query", none, hexEncode signedQuery⟩, none⟩
      (.ok [], msgs ++ [message], sink ++ [message])
  | true, none =>
    match ce.agent.query cid method args effectiveId with
    | .error e => (.error e, msgs, sink)
    | .ok bytes => (decodeRes ce optFunc bytes, msgs, sink)
  | false, some _ =>
    match ce.agent.signUpdate cid method args effectiveId with
    | .error e => (.error e, msgs, sink)
    | .ok (requestId, signedUpdate) =>
      match ce.agent.signRequestStatus effectiveId requestId with
      | .error e => (.error e, msgs, sink)
      | .ok (statusCid, statusReqId, signedStatus) =>
        let message : IngressWithStatus :=
          ⟨⟨"update", some (hexEncode requestId), hexEncode signedUpdate⟩,
           some ⟨statusCid, hexEncode statusReqId, hexEncode signedStatus⟩⟩
        (.ok [], msgs ++ [message], sink ++ [message])
  | false, none =>
    match ce.agent.updateAndWait cid method args effectiveId with
    | .error e => (.error e, msgs, sink)
    | .ok bytes => (decodeRes ce optFunc bytes, msgs, sink)

/-- The single-call executor `call` (`src/exp.rs:936-1008`): resolve the
effective canister id (routing override or the default), then dispatch. -/
def callModel (ce : CallEnv) (msgs sink : List IngressWithStatus)
    (cid method : String) (args : List Nat) (optFunc : Option FuncSig) :
    Except String (List Value) × List IngressWithStatus × List IngressWithStatus :=
  match ce.effOverride cid method args with
  | .error e => (.error e, msgs, sink)
  | .ok effOpt =>
    callModelDispatch ce msgs sink cid method args optFunc
      (effOpt.getD ce.defaultEffectiveId)

/-- One entry of a `ParCall` batch after argument evaluation and
encoding: target, method, encoded argument bytes, and the resolved
signature (if any). -/
structure PCall where
  canister : String
  method : String
  bytes : List Nat
  sig : Option FuncSig

/-- Query-or-update dispatch of an issued request. -/
inductive CallKind where
  | query
  | update
  deriving DecidableEq

/-- A fully prepared request as handed to the agent. -/
structure Request where
  canister : String
  method : String
  bytes : List Nat
  effectiveId : String
  sig : Option FuncSig
  kind : CallKind

/-- The preparation loop of the `Exp::ParCall` arm
(`src/exp.rs:594-624`): resolve the effective id and build one request
per call, in order.  The builder is always `helper.agent.update(..)`, so
every prepared request is an update call, whatever the signature's mode
flags say and whatever the offline setting is. -/
def parCallPrepare (ce : CallEnv) : List PCall → Except String (List Request)
  | [] => .ok []
  | c :: cs =>
    match ce.effOverride c.canister c.method c.bytes with
    | .error e => .error e
    | .ok effOpt =>
      match parCallPrepare ce cs with
      | .error e => .error e
      | .ok rs =>
        .ok ({ canister := c.canister, method := c.method, bytes := c.bytes,
               effectiveId := effOpt.getD ce.defaultEffectiveId,
               sig := c.sig, kind := .update } :: rs)

/-- The per-call future built by the `ParCall` arm: issue the request on
the live transport and decode the reply with the resolved return types. -/
def requestFuture (ce : CallEnv) (r : Request) : Except String (List Value) :=
  match r.kind with
  | .update =>
    match ce.agent.updateAndWait r.canister r.method r.bytes r.effectiveId with
    | .error e => .error e
    | .ok bs => decodeRes ce r.sig bs
  | .query =>
    match ce.agent.query r.canister r.method r.bytes r.effectiveId with
    | .error e => .error e
    | .ok bs => decodeRes ce r.sig bs

/-- The error of the first future, in completion order `sched`, that
finished with an error. -/
def firstCompletedErr (sched : List Nat) (results : List (Except String α)) :
    Option String :=
  sched.findSome? (fun i =>
    match (results[i]? : Option (Except String α)) with
    | some (.error e) => some e
    | _ => none)

/-- Model of `futures::future::try_join_all`, with the nondeterministic completion
order made explicit as a schedule (a permutation of the future indices):
if every future succeeds the results are collected in submission order;
otherwise the first error to complete is returned. -/
def tryJoinAll (sched : List Nat) (results : List (Except String α)) :
    Except String (List α) :=
  match firstCompletedErr sched results with
  | some e => .error e
  | none =>
    .ok (results.filterMap (fun r =>
      match r with
      | .ok v => some v
      | .error _ => none))

/-- The `Exp::ParCall` arm (`src/exp.rs:594-630`) from the point where
per-call arguments are already evaluated and encoded: prepare all
requests in order, drive them concurrently (`parallel_calls`, a
`try_join_all` over the futures), and wrap the decoded per-call results
into a value-tuple in submission order. -/
def parCallModel (ce : CallEnv) (sched : List Nat) (calls : List PCall) :
    Except String Value :=
  match parCallPrepare ce calls with
  | .error e => .error e
  | .ok reqs =>
    match tryJoinAll sched (reqs.map (requestFuture ce)) with
    | .error e => .error e
    | .ok rs => .ok (argsToValue (rs.map argsToValue))

/-! ## Helper definitions and unfolding lemmas for the theorems -/

/-- A context with no bindings, no user functions, a live (non-offline)
configuration, and failing external oracles. -/
def trivialHelper : Helper where
  env := []
  funcEnv := []
  offline := false
  ioOracle := fun _ _ => .error "io oracle unavailable"
  exportWrite := fun _ _ => .error "export oracle unavailable"

/-- Did the evaluation succeed? -/
def isOkRes (r : Except String Value) : Bool :=
  match r with
  | .ok _ => true
  | .error _ => false

theorem eval_ite_unfold (h : Helper) (fuel : Nat) (c a b : Exp) :
    eval h (fuel + 1) (.apply "ite" [c, a, b]) =
      match eval h fuel c with
      | .ok (.bool true) => eval h fuel a
      | .ok (.bool false) => eval h fuel b
      | .ok _ => .error "ite expects the first argument to be a boolean expression"
      | .error s => .error s := rfl

theorem eval_exist_unfold (h : Helper) (fuel : Nat) (e : Exp) :
    eval h (fuel + 1) (.apply "exist" [e]) =
      match eval h fuel e with
      | .ok _ => .ok (.bool true)
      | .error _ => .ok (.bool false) := rfl

theorem eval_record_unfold (h : Helper) (fuel : Nat) (fs : List (Label × Exp)) :
    eval h (fuel + 1) (.record fs) =
      match evalFields (eval h fuel) fs with
      | .error s => .error s
      | .ok gs => .ok (.record (.ofList gs)) := rfl

theorem applyBuiltin_eq_unfold (h : Helper) (v1 v2 : Value) :
    applyBuiltin h "eq" [v1, v2] =
      if tyBeq (valueTy v1) (valueTy v2) then .ok (.bool (structEq v1 v2))
      else .error "eq expects two values of the same type" := rfl

theorem applyBuiltin_neq_unfold (h : Helper) (v1 v2 : Value) :
    applyBuiltin h "neq" [v1, v2] =
      if tyBeq (valueTy v1) (valueTy v2) then .ok (.bool (!structEq v1 v2))
      else .error "neq expects two values of the same type" := rfl

theorem applyBuiltin_concat_records_unfold (h : Helper) (f1 f2 : FieldList) :
    applyBuiltin h "concat" [.record f1, .record f2] =
      match findAdjacentDup (fieldIds (sortByKey (f1.toList ++ f2.toList))) with
      | some d => .error ("label " ++ toString d ++ " hash collision")
      | none => .ok (.record (.ofList (sortByKey (f1.toList ++ f2.toList)))) := rfl

theorem sortByKey_perm (l : List (Label × Value)) : (sortByKey l).Perm l :=
  List.perm_insertionSort fieldLe l

theorem sortByKey_sorted (l : List (Label × Value)) :
    List.Sorted fieldLe (sortByKey l) :=
  List.sorted_insertionSort fieldLe l

theorem fieldIds_append (f1 f2 : List (Label × Value)) :
    fieldIds (f1 ++ f2) = fieldIds f1 ++ fieldIds f2 :=
  List.map_append _ f1 f2

theorem fieldIds_pairwise_le_of_sorted (l : List (Label × Value))
    (hs : List.Sorted fieldLe l) : (fieldIds l).Pairwise (· ≤ ·) := by
  have hm := List.Pairwise.map (S := fun a b : Nat => a ≤ b)
    (fun p : Label × Value => p.1.getId) (fun _ _ hab => hab) hs
  simpa [fieldIds] using hm

theorem fieldIds_perm_of_perm (l1 l2 : List (Label × Value)) (hp : l1.Perm l2) :
    (fieldIds l1).Perm (fieldIds l2) :=
  hp.map _

theorem findAdjacentDup_eq_none (ids : List Nat) :
    findAdjacentDup ids = none ↔ ids.Chain' (· ≠ ·) := by
  induction ids with
  | nil => simp [findAdjacentDup]
  | cons a tl ih =>
    cases tl with
    | nil => simp [findAdjacentDup]
    | cons b tl2 =>
      by_cases hab : a = b
      · simp [findAdjacentDup, hab]
      · simp [findAdjacentDup, hab, List.chain'_cons, ih]

theorem nodup_of_pairwise_le_chain_ne (ids : List Nat)
    (hp : ids.Pairwise (· ≤ ·)) (hc : ids.Chain' (· ≠ ·)) : ids.Nodup := by
  induction ids with
  | nil => simp
  | cons a tl ih =>
    rcases List.pairwise_cons.mp hp with ⟨ha, hp2⟩
    cases tl with
    | nil => simp
    | cons b tl2 =>
      rcases List.chain'_cons.mp hc with ⟨hab, hc2⟩
      have hnd2 : (b :: tl2).Nodup := ih hp2 hc2
      refine List.nodup_cons.mpr ⟨?_, hnd2⟩
      intro hmem
      have halt : a < b :=
        lt_of_le_of_ne (ha b (List.mem_cons_self b tl2)) hab
      rcases List.mem_cons.mp hmem with rfl | hmem2
      · exact hab rfl
      · have hbx : b ≤ a := (List.pairwise_cons.mp hp2).1 a hmem2
        omega

/-- On key-sorted ids, candid's adjacent-duplicate scan finds a duplicate
iff the ids are not pairwise distinct. -/
theorem findAdjacentDup_none_iff_nodup (ids : List Nat)
    (hp : ids.Pairwise (· ≤ ·)) :
    findAdjacentDup ids = none ↔ ids.Nodup := by
  rw [findAdjacentDup_eq_none]
  exact ⟨fun hc => nodup_of_pairwise_le_chain_ne ids hp hc,
    fun hnd => List.Pairwise.chain' hnd⟩

theorem applyBuiltin_add_unfold (h : Helper) (v1 v2 : Value) :
    applyBuiltin h "add" [v1, v2] = arithStep "add" v1 v2 := rfl

theorem applyBuiltin_sub_unfold (h : Helper) (v1 v2 : Value) :
    applyBuiltin h "sub" [v1, v2] = arithStep "sub" v1 v2 := rfl

theorem applyBuiltin_mul_unfold (h : Helper) (v1 v2 : Value) :
    applyBuiltin h "mul" [v1, v2] = arithStep "mul" v1 v2 := rfl

theorem applyBuiltin_div_unfold (h : Helper) (v1 v2 : Value) :
    applyBuiltin h "div" [v1, v2] = arithStep "div" v1 v2 := rfl

theorem evalFields_labels (ev : Exp → Except String Value)
    (fs : List (Label × Exp)) (gs : List (Label × Value))
    (h : evalFields ev fs = .ok gs) : gs.map Prod.fst = fs.map Prod.fst := by
  induction fs generalizing gs with
  | nil =>
    simp only [evalFields] at h
    cases h
    simp
  | cons f tl ih =>
    obtain ⟨l, e⟩ := f
    simp only [evalFields] at h
    cases hev : ev e <;> rw [hev] at h
    · cases h
    · cases hrec : evalFields ev tl <;> rw [hrec] at h
      · cases h
      · cases h
        simp [ih _ hrec]

theorem firstCompletedErr_none_of_ok (sched : List Nat)
    (results : List (Except String α))
    (hok : ∀ r ∈ results, ∃ v, r = .ok v) :
    firstCompletedErr sched results = none := by
  apply List.findSome?_eq_none_iff.mpr
  intro i _
  cases hr : results[i]? with
  | none => rfl
  | some r =>
    obtain ⟨v, rfl⟩ := hok r (List.getElem?_mem hr)
    rfl

theorem tryJoinAll_ok (sched : List Nat) (vs : List α) :
    tryJoinAll sched (vs.map Except.ok) = .ok vs := by
  have hnone : firstCompletedErr sched (vs.map (Except.ok (ε := String))) = none := by
    apply firstCompletedErr_none_of_ok
    intro r hr
    obtain ⟨v, _, rfl⟩ := List.mem_map.mp hr
    exact ⟨v, rfl⟩
  rw [tryJoinAll, hnone]
  have hfm : (vs.map (Except.ok (ε := String))).filterMap
      (fun r => match r with | .ok v => some v | .error _ => none) = vs := by
    clear hnone
    induction vs with
    | nil => rfl
    | cons v tl ih => simpa [List.filterMap_cons] using ih
  exact congrArg Except.ok hfm

theorem tryJoinAll_error (sched : List Nat) (results : List (Except String α))
    (hcov : ∀ i, i < results.length → i ∈ sched)
    (i : Nat) (e : String) (hi : results[i]? = some (.error e)) :
    ∃ (e2 : String) (i2 : Nat), tryJoinAll sched results = .error e2 ∧
      results[i2]? = some (.error e2) := by
  cases hfs : firstCompletedErr sched results with
  | some e2 =>
    obtain ⟨l1, a, l2, _, ha, _⟩ := List.findSome?_eq_some_iff.mp hfs
    have hra : results[a]? = some (.error e2) := by
      cases hr : results[a]? with
      | none => rw [hr] at ha; cases ha
      | some r =>
        cases r with
        | error e3 => rw [hr] at ha; simp at ha; rw [ha]
        | ok v => rw [hr] at ha; cases ha
    exact ⟨e2, a, by rw [tryJoinAll, hfs], hra⟩
  | none =>
    exfalso
    have hlt : i < results.length := (List.getElem?_eq_some_iff.mp hi).1
    have hnone := List.findSome?_eq_none_iff.mp hfs i (hcov i hlt)
    rw [hi] at hnone
    cases hnone

theorem tryJoinAll_unique_error (sched : List Nat)
    (results : List (Except String α))
    (hcov : ∀ i, i < results.length → i ∈ sched)
    (j : Nat) (e : String) (hj : results[j]? = some (.error e))
    (hothers : ∀ k, k ≠ j → ∀ r, results[k]? = some r → ∃ v, r = .ok v) :
    tryJoinAll sched results = .error e := by
  obtain ⟨e2, i2, ht, hi2⟩ := tryJoinAll_error sched results hcov j e hj
  by_cases hij : i2 = j
  · subst hij
    rw [hj] at hi2
    simp at hi2
    rw [ht, hi2]
  · obtain ⟨v, hv⟩ := hothers i2 hij _ hi2
    cases hv

theorem bindArgs_cons (f : String) (fs : List String) (a : Value)
    (as : List Value) (env : VarEnv) :
    bindArgs (f :: fs) (a :: as) env = bindArgs fs as ((f, a) :: env) := rfl

theorem lookupVar_bindArgs_notmem (formals : List String) (args : List Value)
    (env : VarEnv) (x : String) (hx : x ∉ formals) :
    lookupVar (bindArgs formals args env) x = lookupVar env x := by
  induction formals generalizing args env with
  | nil => rfl
  | cons f fs ih =>
    cases args with
    | nil => rfl
    | cons a as =>
      have hxf : x ≠ f := fun hh => hx (hh ▸ List.mem_cons_self f fs)
      rw [bindArgs_cons, ih as _ (fun hm => hx (List.mem_cons_of_mem f hm))]
      have hb : ((f, a).1 == x) = false := by
        simp [Ne.symm hxf]
      simp [lookupVar, List.find?_cons, hb]

theorem lookupVar_bindArgs_get (formals : List String) (args : List Value)
    (env : VarEnv) (i : Nat) (x : String) (hnd : formals.Nodup)
    (hlen : formals.length = args.length) (hx : formals[i]? = some x) :
    lookupVar (bindArgs formals args env) x = args[i]? := by
  induction formals generalizing args env i with
  | nil => simp at hx
  | cons f fs ih =>
    cases args with
    | nil => simp at hlen
    | cons a as =>
      rcases List.nodup_cons.mp hnd with ⟨hfm, hnd2⟩
      cases i with
      | zero =>
        simp at hx
        subst hx
        rw [bindArgs_cons, lookupVar_bindArgs_notmem fs as _ f hfm]
        simp [lookupVar, List.find?_cons]
      | succ j =>
        simp at hx hlen
        rw [bindArgs_cons, ih as _ j hnd2 hlen hx]
        simp

/-! ## Claim theorems -/

/-- C2: evaluating `ite(cond, a, b)` first evaluates `cond`; a non-boolean
result is an error and a failing `cond` propagates its error; when `cond`
is `true`, the result is the evaluation of `a` for every `b` (so the
untaken branch `b` is never evaluated — no effect or error of it can
surface), and symmetrically when `cond` is `false`. -/
theorem ite_evaluates_exactly_one_branch (h : Helper) (fuel : Nat) (c a b : Exp) :
    (eval h fuel c = .ok (.bool true) →
      eval h (fuel + 1) (.apply "ite" [c, a, b]) = eval h fuel a) ∧
    (eval h fuel c = .ok (.bool false) →
      eval h (fuel + 1) (.apply "ite" [c, a, b]) = eval h fuel b) ∧
    (∀ v : Value, eval h fuel c = .ok v → (∀ bb : Bool, v ≠ .bool bb) →
      eval h (fuel + 1) (.apply "ite" [c, a, b]) =
        .error "ite expects the first argument to be a boolean expression") ∧
    (∀ s : String, eval h fuel c = .error s →
      eval h (fuel + 1) (.apply "ite" [c, a, b]) = .error s) := by
  refine ⟨fun hc => ?_, fun hc => ?_, fun v hc hv => ?_, fun s hc => ?_⟩
  · rw [eval_ite_unfold, hc]
  · rw [eval_ite_unfold, hc]
  · rw [eval_ite_unfold, hc]
    cases v with
    | bool bb => exact absurd rfl (hv bb)
    | _ => rfl
  · rw [eval_ite_unfold, hc]

/-- C2 witness: with a true condition, `ite` returns the then-branch even
though the untaken branch would fail if it were evaluated. -/
theorem ite_evaluates_exactly_one_branch_witness :
    eval trivialHelper 2 (.apply "ite" [.bool true, .null, .apply "boom" []]) =
      .ok .null := by
  have h := (ite_evaluates_exactly_one_branch trivialHelper 1 (.bool true) .null
    (.apply "boom" [])).1 rfl
  exact h.trans rfl

/-- C4: `exist(e)` evaluates to the boolean telling whether `e` evaluated
without error; in particular the `exist` application itself never raises. -/
theorem exist_never_raises (h : Helper) (fuel : Nat) (e : Exp) :
    eval h (fuel + 1) (.apply "exist" [e]) =
      .ok (.bool (isOkRes (eval h fuel e))) := by
  rw [eval_exist_unfold]
  cases heval : eval h fuel e <;> simp [isOkRes, heval]

/-- C3: `concat` on two record values (unique labels each) with disjoint
label-id sets returns the union of the fields sorted strictly by label
id; if any label id is shared, `concat` fails with an error. -/
theorem concat_record_union_or_fail (h : Helper) (f1 f2 : List (Label × Value))
    (h1 : (fieldIds f1).Nodup) (h2 : (fieldIds f2).Nodup) :
    ((∀ i ∈ fieldIds f1, i ∉ fieldIds f2) →
      applyBuiltin h "concat" [.record (.ofList f1), .record (.ofList f2)] =
        .ok (.record (.ofList (sortByKey (f1 ++ f2)))) ∧
      (sortByKey (f1 ++ f2)).Perm (f1 ++ f2) ∧
      (fieldIds (sortByKey (f1 ++ f2))).Pairwise (· < ·)) ∧
    ((∃ i ∈ fieldIds f1, i ∈ fieldIds f2) →
      ∃ msg, applyBuiltin h "concat" [.record (.ofList f1), .record (.ofList f2)] =
        .error msg) := by
  have hperm := sortByKey_perm (f1 ++ f2)
  have hsorted := sortByKey_sorted (f1 ++ f2)
  have hidsle := fieldIds_pairwise_le_of_sorted _ hsorted
  have hidsperm := fieldIds_perm_of_perm _ _ hperm
  constructor
  · intro hdisj
    have hnd : (fieldIds (f1 ++ f2)).Nodup := by
      rw [fieldIds_append]
      exact List.Nodup.append h1 h2 hdisj
    have hnd2 : (fieldIds (sortByKey (f1 ++ f2))).Nodup :=
      hidsperm.nodup_iff.mpr hnd
    have hnone : findAdjacentDup (fieldIds (sortByKey (f1 ++ f2))) = none :=
      (findAdjacentDup_none_iff_nodup _ hidsle).mpr hnd2
    refine ⟨?_, hperm, ?_⟩
    · rw [applyBuiltin_concat_records_unfold, fieldListToListOfList,
        fieldListToListOfList, hnone]
    · exact (hidsle.and hnd2).imp (fun hab => lt_of_le_of_ne hab.1 hab.2)
  · rintro ⟨i, hi1, hi2⟩
    have hnotnd : ¬ (fieldIds (f1 ++ f2)).Nodup := by
      rw [fieldIds_append]
      intro hnd
      exact (List.disjoint_of_nodup_append hnd) hi1 hi2
    have hne : findAdjacentDup (fieldIds (sortByKey (f1 ++ f2))) ≠ none := by
      intro hn
      exact hnotnd (hidsperm.nodup_iff.mp
        ((findAdjacentDup_none_iff_nodup _ hidsle).mp hn))
    obtain ⟨d, hd⟩ := Option.ne_none_iff_exists'.mp hne
    refine ⟨"label " ++ toString d ++ " hash collision", ?_⟩
    rw [applyBuiltin_concat_records_unfold, fieldListToListOfList,
      fieldListToListOfList, hd]

/-- C3 witness: merging `record { 1 = null }` with `record { 0 = true }`
succeeds sorted by id; merging two records sharing label `1` fails. -/
theorem concat_record_union_or_fail_witness :
    applyBuiltin trivialHelper "concat"
      [.record (.ofList [(.id 1, .null)]), .record (.ofList [(.id 0, .bool true)])] =
      .ok (.record (.ofList [(Label.id 0, Value.bool true), (Label.id 1, Value.null)])) ∧
    ∃ msg, applyBuiltin trivialHelper "concat"
      [.record (.ofList [(.id 1, .null)]), .record (.ofList [(.id 1, .bool true)])] =
      .error msg := by
  constructor
  · have hc := ((concat_record_union_or_fail trivialHelper [(.id 1, .null)]
      [(.id 0, .bool true)] (by decide) (by decide)).1 (by decide)).1
    exact hc.trans rfl
  · exact (concat_record_union_or_fail trivialHelper [(.id 1, .null)]
      [(.id 1, .bool true)] (by decide) (by decide)).2 ⟨1, by decide, by decide⟩

/-- C1 (amended): evaluating a record expression preserves the
expression's field labels verbatim, in order — it neither sorts, nor
de-duplicates, nor fails on a repeated label (so the result has unique
sorted labels only when the expression already does); merging two
records with `concat` does sort by label id and fails iff a label id
repeats in the combined fields. -/
theorem record_labels_preserved_merge_checked (h : Helper) (fuel : Nat)
    (fs : List (Label × Exp)) (f1 f2 : List (Label × Value)) :
    (∀ v, eval h (fuel + 1) (.record fs) = .ok v →
      ∃ gs, v = .record (.ofList gs) ∧ gs.map Prod.fst = fs.map Prod.fst) ∧
    ((fieldIds (f1 ++ f2)).Nodup →
      applyBuiltin h "concat" [.record (.ofList f1), .record (.ofList f2)] =
        .ok (.record (.ofList (sortByKey (f1 ++ f2)))) ∧
      (fieldIds (sortByKey (f1 ++ f2))).Pairwise (· < ·)) ∧
    (¬ (fieldIds (f1 ++ f2)).Nodup →
      ∃ msg, applyBuiltin h "concat" [.record (.ofList f1), .record (.ofList f2)] =
        .error msg) := by
  have hperm := sortByKey_perm (f1 ++ f2)
  have hsorted := sortByKey_sorted (f1 ++ f2)
  have hidsle := fieldIds_pairwise_le_of_sorted _ hsorted
  have hidsperm := fieldIds_perm_of_perm _ _ hperm
  refine ⟨fun v hv => ?_, fun hnd => ?_, fun hnotnd => ?_⟩
  · rw [eval_record_unfold] at hv
    cases hrec : evalFields (eval h fuel) fs <;> rw [hrec] at hv
    · cases hv
    · cases hv
      exact ⟨_, rfl, evalFields_labels _ _ _ hrec⟩
  · have hnd2 : (fieldIds (sortByKey (f1 ++ f2))).Nodup :=
      hidsperm.nodup_iff.mpr hnd
    have hnone : findAdjacentDup (fieldIds (sortByKey (f1 ++ f2))) = none :=
      (findAdjacentDup_none_iff_nodup _ hidsle).mpr hnd2
    constructor
    · rw [applyBuiltin_concat_records_unfold, fieldListToListOfList,
        fieldListToListOfList, hnone]
    · exact (hidsle.and hnd2).imp (fun hab => lt_of_le_of_ne hab.1 hab.2)
  · have hne : findAdjacentDup (fieldIds (sortByKey (f1 ++ f2))) ≠ none := by
      intro hn
      exact hnotnd (hidsperm.nodup_iff.mp
        ((findAdjacentDup_none_iff_nodup _ hidsle).mp hn))
    obtain ⟨d, hd⟩ := Option.ne_none_iff_exists'.mp hne
    refine ⟨"label " ++ toString d ++ " hash collision", ?_⟩
    rw [applyBuiltin_concat_records_unfold, fieldListToListOfList,
      fieldListToListOfList, hd]

/-- C1 counterexample: a record expression with the label `0` twice
evaluates successfully to a record value that repeats label `0` (and is
not label-unique), contradicting the claim that any construction with a
repeated label fails and that produced records never repeat labels. -/
theorem record_dup_labels_counterexample :
    eval trivialHelper 2 (.record [(.id 0, .null), (.id 0, .bool true)]) =
      .ok (.record (.ofList [(Label.id 0, Value.null), (Label.id 0, Value.bool true)])) ∧
    ¬ (fieldIds [(Label.id 0, Value.null), (Label.id 0, Value.bool true)]).Nodup :=
  ⟨rfl, by decide⟩

/-- C1 witness: the amended theorem at a concrete duplicate-label record
expression and a concrete duplicate-label merge. -/
theorem record_labels_preserved_merge_checked_witness :
    (∃ gs, Value.record (.ofList [(Label.id 0, Value.null), (Label.id 0, Value.bool true)]) =
      Value.record (.ofList gs) ∧
      gs.map Prod.fst = [(Label.id 0, Exp.null), (Label.id 0, Exp.bool true)].map Prod.fst) ∧
    ∃ msg, applyBuiltin trivialHelper "concat"
      [.record (.ofList [(.id 0, .null)]), .record (.ofList [(.id 0, .bool true)])] =
      .error msg := by
  constructor
  · exact (record_labels_preserved_merge_checked trivialHelper 1
      [(.id 0, .null), (.id 0, .bool true)] [] []).1 _ rfl
  · exact (record_labels_preserved_merge_checked trivialHelper 0 []
      [(.id 0, .null)] [(.id 0, .bool true)]).2.2 (by decide)

/-- C8: invoking a user-defined function with the wrong number of
arguments fails with an arity-mismatch error naming the expected and
provided counts; with matching counts the formals are bound positionally
to the argument values in a spawned child environment, the body runs
there, and the call returns the child's final `_` binding (null when `_`
was never assigned). -/
theorem apply_func_arity_binding (h : Helper) (f : String)
    (formals : List String) (body : List Cmd) (args : List Value)
    (hf : lookupFn h f = some (formals, body)) :
    (formals.length ≠ args.length →
      applyFunc h f args = .error (f ++ " expects " ++ toString formals.length ++
        " arguments, but " ++ toString args.length ++ " is provided")) ∧
    (formals.length = args.length →
      (∀ env1, runBody body (bindArgs formals args []) = .ok env1 →
        applyFunc h f args = .ok ((lookupVar env1 "_").getD .null)) ∧
      (∀ e, runBody body (bindArgs formals args []) = .error e →
        applyFunc h f args = .error e) ∧
      (body = [] → "_" ∉ formals → applyFunc h f args = .ok .null) ∧
      (formals.Nodup → ∀ (i : Nat) (x : String), formals[i]? = some x →
        lookupVar (bindArgs formals args []) x = args[i]?)) := by
  refine ⟨fun hne => ?_, fun heq =>
    ⟨fun env1 hrun => ?_, fun e hrun => ?_, fun hbody hnotm => ?_,
     fun hnd i x hx => ?_⟩⟩
  · simp only [applyFunc, hf]
    rw [if_pos hne]
  · simp only [applyFunc, hf]
    rw [if_neg (fun hh => hh heq), hrun]
  · simp only [applyFunc, hf]
    rw [if_neg (fun hh => hh heq), hrun]
  · subst hbody
    simp only [applyFunc, hf]
    rw [if_neg (fun hh => hh heq)]
    have hrun : runBody [] (bindArgs formals args []) = .ok (bindArgs formals args []) := rfl
    rw [hrun]
    show Except.ok ((lookupVar (bindArgs formals args []) "_").getD Value.null) =
      Except.ok Value.null
    rw [lookupVar_bindArgs_notmem _ _ _ _ hnotm]
    rfl
  · exact lookupVar_bindArgs_get formals args [] i x hnd heq hx

/-- A context owning one user function `f(x)` with an empty body. -/
def helperWithF : Helper where
  env := []
  funcEnv := [("f", (["x"], []))]
  offline := false
  ioOracle := fun _ _ => .error "io oracle unavailable"
  exportWrite := fun _ _ => .error "export oracle unavailable"

/-- C8 witness: `f` declared with one parameter: calling it with none
fails naming 1 expected and 0 provided; calling it with one argument
returns null (its body never assigns `_`), and the parameter is bound
positionally. -/
theorem apply_func_arity_binding_witness :
    applyFunc helperWithF "f" [] =
      .error "f expects 1 arguments, but 0 is provided" ∧
    applyFunc helperWithF "f" [.bool true] = .ok .null ∧
    lookupVar (bindArgs ["x"] [.bool true] []) "x" = some (.bool true) := by
  have hf : lookupFn helperWithF "f" = some (["x"], []) := rfl
  refine ⟨?_, ?_, ?_⟩
  · exact ((apply_func_arity_binding helperWithF "f" ["x"] [] [] hf).1
      (by decide)).trans rfl
  · exact ((apply_func_arity_binding helperWithF "f" ["x"] [] [.bool true] hf).2
      rfl).2.2.1 rfl (by decide)
  · have h3 := ((apply_func_arity_binding helperWithF "f" ["x"] [] [.bool true] hf).2
      rfl).2.2.2 (by decide) 0 "x" rfl
    simpa using h3

/-- C7: a `ParCall` batch collects the per-call results into a tuple in
submission order, whatever the completion order (any schedule that is a
permutation of the future indices); if some call's future fails, the
batch evaluates to a failing call's error — and when exactly one call
fails, to that call's error — never to a partial-success value. -/
theorem parcall_ordered_failfast (ce : CallEnv) (sched : List Nat)
    (calls : List PCall) (reqs : List Request)
    (hprep : parCallPrepare ce calls = .ok reqs)
    (hperm : sched.Perm (List.range reqs.length)) :
    (∀ vs : List (List Value), reqs.map (requestFuture ce) = vs.map Except.ok →
      parCallModel ce sched calls = .ok (argsToValue (vs.map argsToValue))) ∧
    ((∃ (i : Nat) (e : String),
        (reqs.map (requestFuture ce))[i]? = some (.error e)) →
      ∃ (e : String) (i : Nat), parCallModel ce sched calls = .error e ∧
        (reqs.map (requestFuture ce))[i]? = some (.error e)) ∧
    (∀ (j : Nat) (e : String),
      (reqs.map (requestFuture ce))[j]? = some (.error e) →
      (∀ k, k ≠ j → ∀ r, (reqs.map (requestFuture ce))[k]? = some r →
        ∃ v, r = .ok v) →
      parCallModel ce sched calls = .error e) := by
  have hcov : ∀ i, i < (reqs.map (requestFuture ce)).length → i ∈ sched := by
    intro i hlt
    rw [List.length_map] at hlt
    exact hperm.mem_iff.mpr (List.mem_range.mpr hlt)
  have hpm : parCallModel ce sched calls =
      match tryJoinAll sched (reqs.map (requestFuture ce)) with
      | .error e => .error e
      | .ok rs => .ok (argsToValue (rs.map argsToValue)) := by
    simp only [parCallModel]
    rw [hprep]
  refine ⟨fun vs hvs => ?_, fun hex => ?_, fun j e hj hothers => ?_⟩
  · rw [hpm, hvs, tryJoinAll_ok]
  · obtain ⟨i, e, hi⟩ := hex
    obtain ⟨e2, i2, ht, hi2⟩ := tryJoinAll_error sched _ hcov i e hi
    refine ⟨e2, i2, ?_, hi2⟩
    rw [hpm, ht]
  · have ht := tryJoinAll_unique_error sched _ hcov j e hj hothers
    rw [hpm, ht]

/-- An agent whose live update transport fails exactly for the canister
named `bad`, with trivial decoders. -/
def parAgent : Agent where
  query := fun _ _ _ _ => .error "no network"
  updateAndWait := fun c _ _ _ => if c = "bad" then .error "boom" else .ok []
  signQuery := fun _ _ _ _ => .error "sign unavailable"
  signUpdate := fun _ _ _ _ => .error "sign unavailable"
  signRequestStatus := fun _ _ => .error "sign unavailable"

def parEnv : CallEnv where
  agent := parAgent
  decodeWith := fun _ _ => .ok [.null]
  decodePlain := fun _ => .ok [.null]
  effOverride := fun _ _ _ => .ok none
  defaultEffectiveId := "eff"
  offline := none

def goodCalls : List PCall :=
  [⟨"a", "m", [], none⟩, ⟨"b", "m", [], none⟩, ⟨"c", "m", [], none⟩]

def badCalls : List PCall :=
  [⟨"a", "m", [], none⟩, ⟨"bad", "m", [], none⟩, ⟨"c", "m", [], none⟩]

def goodReqs : List Request :=
  [⟨"a", "m", [], "eff", none, .update⟩, ⟨"b", "m", [], "eff", none, .update⟩,
   ⟨"c", "m", [], "eff", none, .update⟩]

def badReqs : List Request :=
  [⟨"a", "m", [], "eff", none, .update⟩, ⟨"bad", "m", [], "eff", none, .update⟩,
   ⟨"c", "m", [], "eff", none, .update⟩]

/-- C7 witness: a three-call batch under the completion order 2, 0, 1
still yields the tuple in submission order; with the second target
failing, the batch is that error. -/
theorem parcall_ordered_failfast_witness :
    parCallModel parEnv [2, 0, 1] goodCalls =
      .ok (.record (.ofList
        [(.unnamed 0, .null), (.unnamed 1, .null), (.unnamed 2, .null)])) ∧
    ∃ (e : String) (i : Nat), parCallModel parEnv [2, 0, 1] badCalls = .error e ∧
      (badReqs.map (requestFuture parEnv))[i]? = some (.error e) := by
  constructor
  · have h1 := (parcall_ordered_failfast parEnv [2, 0, 1] goodCalls goodReqs rfl
      (by decide)).1 [[Value.null], [Value.null], [Value.null]] rfl
    exact h1.trans rfl
  · exact (parcall_ordered_failfast parEnv [2, 0, 1] badCalls badReqs rfl
      (by decide)).2.1 ⟨1, "boom", rfl⟩

/-- C9: in offline mode a single call performs no network interaction
(its outcome is unchanged under any replacement of the live transport)
and returns an empty result set; the signed envelope is appended to both
the in-memory message log and the sink, carrying for an update call a
hex request id plus a signed status-poll descriptor and for a query call
neither. -/
theorem call_offline_signs_and_logs (ce : CallEnv)
    (msgs sink : List IngressWithStatus) (cid method : String)
    (args : List Nat) (optFunc : Option FuncSig) (effOpt : Option String)
    (hoff : ce.offline = some ())
    (heff : ce.effOverride cid method args = .ok effOpt) :
    (∀ sq, (optFunc.map FuncSig.isQuery).getD false = true →
      ce.agent.signQuery cid method args (effOpt.getD ce.defaultEffectiveId) = .ok sq →
      callModel ce msgs sink cid method args optFunc =
        (.ok [], msgs ++ [⟨⟨"query", none, hexEncode sq⟩, none⟩],
                 sink ++ [⟨⟨"query", none, hexEncode sq⟩, none⟩])) ∧
    (∀ rid su scid srid sst, (optFunc.map FuncSig.isQuery).getD false = false →
      ce.agent.signUpdate cid method args (effOpt.getD ce.defaultEffectiveId) =
        .ok (rid, su) →
      ce.agent.signRequestStatus (effOpt.getD ce.defaultEffectiveId) rid =
        .ok (scid, srid, sst) →
      callModel ce msgs sink cid method args optFunc =
        (.ok [], msgs ++ [⟨⟨"update", some (hexEncode rid), hexEncode su⟩,
                           some ⟨scid, hexEncode srid, hexEncode sst⟩⟩],
                 sink ++ [⟨⟨"update", some (hexEncode rid), hexEncode su⟩,
                           some ⟨scid, hexEncode srid, hexEncode sst⟩⟩])) ∧
    (∀ q u, callModel
        { ce with agent := { ce.agent with query := q, updateAndWait := u } }
        msgs sink cid method args optFunc =
      callModel ce msgs sink cid method args optFunc) := by
  have hcm : callModel ce msgs sink cid method args optFunc =
      callModelDispatch ce msgs sink cid method args optFunc
        (effOpt.getD ce.defaultEffectiveId) := by
    simp only [callModel]
    rw [heff]
  refine ⟨fun sq hq hsq => ?_, fun rid su scid srid sst hq hsu hst => ?_,
    fun q u => ?_⟩
  · rw [hcm]
    simp only [callModelDispatch]
    rw [hq, hoff]
    dsimp only
    rw [hsq]
  · rw [hcm]
    simp only [callModelDispatch]
    rw [hq, hoff]
    dsimp only
    rw [hsu]
    dsimp only
    rw [hst]
  · dsimp only [callModel]
    rw [heff]
    dsimp only [callModelDispatch]
    rw [hoff]
    cases hq2 : (optFunc.map FuncSig.isQuery).getD false <;> rfl

/-- An agent that can only sign (offline use): the live transport always
fails, signing returns fixed envelopes. -/
def offAgent : Agent where
  query := fun _ _ _ _ => .error "no network"
  updateAndWait := fun _ _ _ _ => .error "no network"
  signQuery := fun _ _ _ _ => .ok [1, 2]
  signUpdate := fun _ _ _ _ => .ok ([3], [4, 5])
  signRequestStatus := fun eid _ => .ok (eid, [3], [6])

def offEnv : CallEnv where
  agent := offAgent
  decodeWith := fun _ _ => .ok [.null]
  decodePlain := fun _ => .ok [.null]
  effOverride := fun _ _ _ => .ok none
  defaultEffectiveId := "eff"
  offline := some ()

/-- C9 witness: an offline query call logs a query envelope with no
request id and no status poll; an offline update call logs a hex request
id and a status-poll descriptor; both return the empty result set, and
the offline outcome ignores the live transport. -/
theorem call_offline_signs_and_logs_witness :
    callModel offEnv [] [] "c" "m" [] (some ⟨[Mode.query], []⟩) =
      (.ok [], [⟨⟨"query", none, "0102"⟩, none⟩],
               [⟨⟨"query", none, "0102"⟩, none⟩]) ∧
    callModel offEnv [] [] "c" "m" [] none =
      (.ok [], [⟨⟨"update", some "03", "0405"⟩, some ⟨"eff", "03", "06"⟩⟩],
               [⟨⟨"update", some "03", "0405"⟩, some ⟨"eff", "03", "06"⟩⟩]) ∧
    callModel { offEnv with agent := { offEnv.agent with
        query := fun _ _ _ _ => .ok [9],
        updateAndWait := fun _ _ _ _ => .ok [9] } } [] [] "c" "m" [] none =
      callModel offEnv [] [] "c" "m" [] none := by
  refine ⟨?_, ?_, ?_⟩
  · exact ((call_offline_signs_and_logs offEnv [] [] "c" "m" []
      (some ⟨[Mode.query], []⟩) none rfl rfl).1 [1, 2] rfl rfl).trans rfl
  · exact ((call_offline_signs_and_logs offEnv [] [] "c" "m" []
      none none rfl rfl).2.1 [3] [4, 5] "eff" [3] [6] rfl rfl rfl).trans rfl
  · exact (call_offline_signs_and_logs offEnv [] [] "c" "m" []
      none none rfl rfl).2.2 (fun _ _ _ _ => .ok [9]) (fun _ _ _ _ => .ok [9])

/-- Two batch entries that may differ only in their signatures' mode
flags: same target, method, bytes, and same return types (or both
unresolved). -/
def sameButModes (c1 c2 : PCall) : Prop :=
  c1.canister = c2.canister ∧ c1.method = c2.method ∧ c1.bytes = c2.bytes ∧
  ((c1.sig = none ∧ c2.sig = none) ∨
    (∃ f1 f2, c1.sig = some f1 ∧ c2.sig = some f2 ∧ f1.rets = f2.rets))

theorem parCallPrepare_offline_irrel (ce : CallEnv) (o : Option Unit)
    (calls : List PCall) :
    parCallPrepare { ce with offline := o } calls = parCallPrepare ce calls := by
  induction calls with
  | nil => rfl
  | cons c cs ih =>
    dsimp only [parCallPrepare]
    rw [ih]

theorem parCallModel_offline_irrel (ce : CallEnv) (o : Option Unit)
    (sched : List Nat) (calls : List PCall) :
    parCallModel { ce with offline := o } sched calls =
      parCallModel ce sched calls := by
  have hrf : requestFuture { ce with offline := o } = requestFuture ce := rfl
  simp only [parCallModel]
  rw [parCallPrepare_offline_irrel, hrf]

theorem requestFuture_sig_congr (ce : CallEnv) (cn mth : String)
    (bts : List Nat) (eff : String) (s1 s2 : Option FuncSig) (k : CallKind)
    (hs : (s1 = none ∧ s2 = none) ∨
      ∃ f1 f2, s1 = some f1 ∧ s2 = some f2 ∧ f1.rets = f2.rets) :
    requestFuture ce ⟨cn, mth, bts, eff, s1, k⟩ =
      requestFuture ce ⟨cn, mth, bts, eff, s2, k⟩ := by
  have hd : decodeRes ce s1 = decodeRes ce s2 := by
    rcases hs with ⟨rfl, rfl⟩ | ⟨f1, f2, rfl, rfl, hr⟩
    · rfl
    · funext bs
      simp only [decodeRes]
      rw [hr]
  cases k <;> simp only [requestFuture] <;> rw [hd]

theorem prepare_map_congr (ce : CallEnv) (calls calls2 : List PCall)
    (hrel : List.Forall₂ sameButModes calls calls2) :
    (parCallPrepare ce calls).map (fun reqs => reqs.map (requestFuture ce)) =
      (parCallPrepare ce calls2).map (fun reqs => reqs.map (requestFuture ce)) := by
  induction hrel with
  | nil => rfl
  | @cons c1 c2 l1 l2 hcc hrel2 ih =>
    obtain ⟨hcan, hmeth, hbytes, hsig⟩ := hcc
    simp only [parCallPrepare]
    rw [hcan, hmeth, hbytes]
    cases he : ce.effOverride c2.canister c2.method c2.bytes with
    | error e => rfl
    | ok effOpt =>
      cases hp1 : parCallPrepare ce l1 <;> cases hp2 : parCallPrepare ce l2 <;>
        rw [hp1, hp2] at ih <;> simp only [Except.map] at ih ⊢
      · exact ih
      · cases ih
      · cases ih
      · injection ih with ih2
        rw [List.map_cons, List.map_cons, ih2,
          requestFuture_sig_congr ce c2.canister c2.method c2.bytes
            (effOpt.getD ce.defaultEffectiveId) c1.sig c2.sig .update hsig]

theorem parCallModel_modes_irrel (ce : CallEnv) (sched : List Nat)
    (calls calls2 : List PCall)
    (hrel : List.Forall₂ sameButModes calls calls2) :
    parCallModel ce sched calls = parCallModel ce sched calls2 := by
  have hm := prepare_map_congr ce calls calls2 hrel
  simp only [parCallModel]
  cases h1 : parCallPrepare ce calls <;> cases h2 : parCallPrepare ce calls2 <;>
    rw [h1, h2] at hm <;> simp only [Except.map] at hm <;> dsimp only
  · injection hm with hmm
    rw [hmm]
  · cases hm
  · cases hm
  · injection hm with hmm
    rw [hmm]

theorem parCallPrepare_kinds (ce : CallEnv) (calls : List PCall)
    (reqs : List Request) (hprep : parCallPrepare ce calls = .ok reqs) :
    ∀ r ∈ reqs, r.kind = .update := by
  induction calls generalizing reqs with
  | nil =>
    simp only [parCallPrepare] at hprep
    cases hprep
    intro r hr
    simp at hr
  | cons c cs ih =>
    simp only [parCallPrepare] at hprep
    cases he : ce.effOverride c.canister c.method c.bytes <;> rw [he] at hprep
    · cases hprep
    · cases hr2 : parCallPrepare ce cs <;> rw [hr2] at hprep
      · cases hprep
      · cases hprep
        intro r hr
        rcases List.mem_cons.mp hr with rfl | hm
        · rfl
        · exact ih _ hr2 r hm

/-- C10: every request of a `ParCall` batch is dispatched as an update
call over the live transport — the signature's query flag and the
offline setting are ignored (results are invariant under changing either)
and an update-kind request runs through `updateAndWait` — unlike a single
`Call`, which dispatches on the query flag (a live query goes through the
query transport) and supports offline signing. -/
theorem parcall_always_update_live (ce : CallEnv) (sched : List Nat)
    (calls calls2 : List PCall) (o1 o2 : Option Unit) :
    (∀ reqs, parCallPrepare ce calls = .ok reqs → ∀ r ∈ reqs, r.kind = .update) ∧
    (parCallModel { ce with offline := o1 } sched calls =
      parCallModel { ce with offline := o2 } sched calls) ∧
    (List.Forall₂ sameButModes calls calls2 →
      parCallModel ce sched calls = parCallModel ce sched calls2) ∧
    (∀ r : Request, r.kind = .update →
      requestFuture ce r =
        match ce.agent.updateAndWait r.canister r.method r.bytes r.effectiveId with
        | .error e => .error e
        | .ok bs => decodeRes ce r.sig bs) ∧
    (∀ msgs sink cid method bts (f : FuncSig) effOpt bs,
      ce.offline = none → ce.effOverride cid method bts = .ok effOpt →
      FuncSig.isQuery f = true →
      ce.agent.query cid method bts (effOpt.getD ce.defaultEffectiveId) = .ok bs →
      callModel ce msgs sink cid method bts (some f) =
        (decodeRes ce (some f) bs, msgs, sink)) := by
  refine ⟨fun reqs hprep => parCallPrepare_kinds ce calls reqs hprep,
    ?_, fun hrel => parCallModel_modes_irrel ce sched calls calls2 hrel,
    fun r hk => ?_, fun msgs sink cid method bts f effOpt bs hoffn heff hq hqr => ?_⟩
  · rw [parCallModel_offline_irrel, parCallModel_offline_irrel ce o2]
  · obtain ⟨cn, mth, bt, eff, sg, k⟩ := r
    dsimp only at hk
    subst hk
    rfl
  · simp only [callModel]
    rw [heff]
    simp only [callModelDispatch]
    have hq2 : ((some f).map FuncSig.isQuery).getD false = true := by
      simp [hq]
    rw [hq2, hoffn]
    dsimp only
    rw [hqr]

def liveQueryEnv : CallEnv :=
  { parEnv with agent := { parAgent with query := fun _ _ _ _ => .ok [7] } }

/-- C10 witness: a prepared batch request has update kind; a batch result
is unchanged by turning offline mode on or by marking the method's
signature as a query; and a single live call with a query signature goes
through the query transport. -/
theorem parcall_always_update_live_witness :
    (⟨"a", "m", [], "eff", none, .update⟩ : Request).kind = .update ∧
    parCallModel { parEnv with offline := some () } [0] [⟨"a", "m", [], none⟩] =
      parCallModel { parEnv with offline := none } [0] [⟨"a", "m", [], none⟩] ∧
    parCallModel parEnv [0] [⟨"a", "m", [], some ⟨[], []⟩⟩] =
      parCallModel parEnv [0] [⟨"a", "m", [], some ⟨[Mode.query], []⟩⟩] ∧
    callModel liveQueryEnv [] [] "a" "m" [] (some ⟨[Mode.query], []⟩) =
      (.ok [.null], [], []) := by
  refine ⟨?_, ?_, ?_, ?_⟩
  · exact (parcall_always_update_live parEnv [0] goodCalls goodCalls none none).1
      goodReqs rfl _ (List.mem_cons_self _ _)
  · exact (parcall_always_update_live parEnv [0] [⟨"a", "m", [], none⟩] []
      (some ()) none).2.1
  · exact (parcall_always_update_live parEnv [0] [⟨"a", "m", [], some ⟨[], []⟩⟩]
      [⟨"a", "m", [], some ⟨[Mode.query], []⟩⟩] none none).2.2.1
      (List.Forall₂.cons ⟨rfl, rfl, rfl, Or.inr ⟨_, _, rfl, rfl, rfl⟩⟩
        List.Forall₂.nil)
  · exact ((parcall_always_update_live liveQueryEnv [] [] [] none none).2.2.2.2
      [] [] "a" "m" [] ⟨[Mode.query], []⟩ none [7] rfl rfl rfl rfl).trans rfl

/-- C5: `eq`/`neq` fail with a type-mismatch error whenever the two
evaluated operands' types differ (no coercion); on identical types `eq`
returns structural equality and `neq` its negation. -/
theorem eq_neq_require_same_type (h : Helper) (v1 v2 : Value) :
    (tyBeq (valueTy v1) (valueTy v2) = false →
      applyBuiltin h "eq" [v1, v2] = .error "eq expects two values of the same type" ∧
      applyBuiltin h "neq" [v1, v2] = .error "neq expects two values of the same type") ∧
    (tyBeq (valueTy v1) (valueTy v2) = true →
      applyBuiltin h "eq" [v1, v2] = .ok (.bool (structEq v1 v2)) ∧
      applyBuiltin h "neq" [v1, v2] = .ok (.bool (!structEq v1 v2))) := by
  constructor <;> intro ht <;>
    simp [applyBuiltin_eq_unfold, applyBuiltin_neq_unfold, ht]

/-- C5 witness: `eq` on a bool and a null fails; `eq` on two equal bools
returns true. -/
theorem eq_neq_require_same_type_witness :
    applyBuiltin trivialHelper "eq" [.bool true, .null] =
      .error "eq expects two values of the same type" ∧
    applyBuiltin trivialHelper "eq" [.bool true, .bool true] = .ok (.bool true) := by
  constructor
  · exact ((eq_neq_require_same_type trivialHelper (.bool true) .null).1 rfl).1
  · exact (((eq_neq_require_same_type trivialHelper (.bool true) (.bool true)).2
      rfl).1).trans rfl

/-- C6: with no float operand, `add`/`sub`/`mul`/`div` compute in
arbitrary-precision integer arithmetic (division truncating toward zero,
`Int.tdiv`); with a float operand, both sides are cast to float64 and the
result is a float.  Examples: `add(1,2)` is the integer `3` and
`add(1.0,2)` is the float `3.0`. -/
theorem arith_dispatch_int_float (h : Helper) (v1 v2 : Value) (i1 i2 : Int) (q1 q2 : Rat) :
    (isFloatVal v1 = false → isFloatVal v2 = false →
      castType v1 .int = .ok (.int i1) → castType v2 .int = .ok (.int i2) →
      applyBuiltin h "add" [v1, v2] = .ok (.number (toString (i1 + i2))) ∧
      applyBuiltin h "sub" [v1, v2] = .ok (.number (toString (i1 - i2))) ∧
      applyBuiltin h "mul" [v1, v2] = .ok (.number (toString (i1 * i2))) ∧
      (i2 ≠ 0 → applyBuiltin h "div" [v1, v2] = .ok (.number (toString (Int.tdiv i1 i2))))) ∧
    ((isFloatVal v1 = true ∨ isFloatVal v2 = true) →
      castType v1 .float64 = .ok (.float64 q1) → castType v2 .float64 = .ok (.float64 q2) →
      applyBuiltin h "add" [v1, v2] = .ok (.float64 (q1 + q2)) ∧
      applyBuiltin h "sub" [v1, v2] = .ok (.float64 (q1 - q2)) ∧
      applyBuiltin h "mul" [v1, v2] = .ok (.float64 (q1 * q2)) ∧
      (q2 ≠ 0 → applyBuiltin h "div" [v1, v2] = .ok (.float64 (q1 / q2)))) ∧
    applyBuiltin h "add" [.number "1", .number "2"] = .ok (.number "3") ∧
    applyBuiltin h "add" [.float64 1, .number "2"] = .ok (.float64 3) := by
  refine ⟨fun hf1 hf2 hc1 hc2 => ?_, fun hf hc1 hc2 => ?_, ?_, ?_⟩
  · simp [applyBuiltin_add_unfold, applyBuiltin_sub_unfold, applyBuiltin_mul_unfold,
      applyBuiltin_div_unfold, arithStep, hf1, hf2, hc1, hc2, intArith]
  · have hor : (isFloatVal v1 || isFloatVal v2) = true := by
      rcases hf with hf | hf <;> simp [hf]
    simp [applyBuiltin_add_unfold, applyBuiltin_sub_unfold, applyBuiltin_mul_unfold,
      applyBuiltin_div_unfold, arithStep, hor, hc1, hc2, floatArith]
  · rw [applyBuiltin_add_unfold]
    have hc1 : castType (.number "1") Ty.int = .ok (.int 1) := rfl
    have hc2 : castType (.number "2") Ty.int = .ok (.int 2) := rfl
    simp [arithStep, isFloatVal, hc1, hc2, intArith]
    rfl
  · rw [applyBuiltin_add_unfold]
    have hc1 : castType (.float64 1) Ty.float64 = .ok (.float64 1) := rfl
    have hc2 : castType (.number "2") Ty.float64 = .ok (.float64 ((2 : Int) : Rat)) := rfl
    simp [arithStep, isFloatVal, hc1, hc2, floatArith]
    norm_num

/-- C6 witness: the integer and float branches at concrete operands,
including truncating division. -/
theorem arith_dispatch_int_float_witness :
    applyBuiltin trivialHelper "add" [.number "1", .number "2"] = .ok (.number "3") ∧
    applyBuiltin trivialHelper "div" [.number "7", .number "-2"] = .ok (.number "-3") ∧
    ∃ q : Rat, applyBuiltin trivialHelper "div" [.float64 1, .number "2"] =
      .ok (.float64 q) := by
  refine ⟨?_, ?_, ?_⟩
  · exact (((arith_dispatch_int_float trivialHelper (.number "1") (.number "2")
      1 2 0 0).1 rfl rfl rfl rfl).1).trans rfl
  · exact ((((arith_dispatch_int_float trivialHelper (.number "7") (.number "-2")
      7 (-2) 0 0).1 rfl rfl rfl rfl).2.2.2 (by norm_num))).trans rfl
  · exact ⟨_, ((arith_dispatch_int_float trivialHelper (.float64 1) (.number "2")
      0 0 1 ((2 : Int) : Rat)).2.1 (Or.inl rfl) rfl rfl).2.2.2 (by norm_num)⟩

end IcRepl
